import Mathlib

/-!
Verification of the imgpkg copy command and the `imageset` unprocessed-image
set against their natural-language specification.

The Go sources embedded here are
`pkg/imgpkg/imageset/unprocessed_image_refs.go` (package `imageset`) and the
`copy` command of package `cmd`.  Pure Go functions become Lean functions.
A Go function that can return an `error` or panic returns a `GoResult`:
`.ok` is a normal return, `.error` a returned error value and `.panicked` a
panic.  External collaborators (the registry, the filesystem, the transfer
engine) are passed in as an `Env` of oracle results, so the orchestration
logic of `Run` stays a pure function of its inputs.
-/

namespace Imgpkg

/-- Outcome of running a Go function: normal return, returned `error`,
or panic. -/
inductive GoResult (α : Type) where
  | ok : α → GoResult α
  | error : String → GoResult α
  | panicked : String → GoResult α
deriving DecidableEq, Repr

/-- Map over the normal-return value of a `GoResult`. -/
def GoResult.map {α β : Type} (f : α → β) : GoResult α → GoResult β
  | .ok a => .ok (f a)
  | .error e => .error e
  | .panicked m => .panicked m

/-- Sequence two Go computations, propagating errors and panics. -/
def GoResult.bind {α β : Type} : GoResult α → (α → GoResult β) → GoResult β
  | .ok a, f => f a
  | .error e, _ => .error e
  | .panicked m, _ => .panicked m

/-- Embedding of `UnprocessedImageRef` (package `imageset`).  Go's `Labels`
map may be `nil`; `none` models the nil map and `some` a (possibly empty)
association list of label bindings. -/
structure UnprocessedImageRef where
  DigestRef : String
  Tag : String
  Labels : Option (List (String × String))
  OrigRef : String
deriving DecidableEq, Repr

/-- Embedding of `UnprocessedImageRef.LabelValue`: `value, ok := u.Labels[label]`.
A lookup in a nil Go map yields the zero value and `false`. -/
def UnprocessedImageRef.LabelValue (u : UnprocessedImageRef) (label : String) :
    String × Bool :=
  match u.Labels with
  | none => ("", false)
  | some m =>
    match m.lookup label with
    | some value => (value, true)
    | none => ("", false)

/-- Embedding of `UnprocessedImageRef.Key`: `u.DigestRef + ":" + u.Tag`. -/
def UnprocessedImageRef.Key (u : UnprocessedImageRef) : String :=
  u.DigestRef ++ ":" ++ u.Tag

/-- Hex digit as accepted in an image digest. -/
def isHexDigit (c : Char) : Bool :=
  c.isDigit || ('a' ≤ c && c ≤ 'f')

/-- Split a character list at every occurrence of `sep` (helper for parsing a
digested reference at its `@` separator). -/
def splitSegs (sep : Char) : List Char → List (List Char)
  | [] => [[]]
  | c :: rest =>
    let r := splitSegs sep rest
    if c = sep then [] :: r
    else
      match r with
      | [] => [[c]]
      | seg :: segs => (c :: seg) :: segs

/-- The digest component of a digested reference: `sha256:` followed by
exactly 64 hex characters. -/
def checkDigestPart : List Char → Bool
  | 's' :: 'h' :: 'a' :: '2' :: '5' :: '6' :: ':' :: hex =>
    (hex.length == 64) && hex.all isHexDigit
  | _ => false

/-- Modelled from the spec: `regname.NewDigest` of the external
go-containerregistry library (not part of this repository) parses a digested
reference of the form `host/repo@sha256:<64 hex>`: a non-empty name, one `@`
separator, and a well-formed sha256 digest; anything else is an error. -/
def NewDigest (s : String) : Except String Unit :=
  match splitSegs '@' s.data with
  | [nm, dg] =>
    if !nm.isEmpty && checkDigestPart dg then .ok ()
    else .error ("could not parse reference: " ++ s)
  | _ => .error ("could not parse reference: " ++ s)

/-- Embedding of `UnprocessedImageRef.Validate`: panics (does not return an
error) when `regname.NewDigest` rejects the `DigestRef`. -/
def UnprocessedImageRef.Validate (u : UnprocessedImageRef) : GoResult Unit :=
  match NewDigest u.DigestRef with
  | .error err => .panicked ("Digest need to be provided: " ++ err)
  | .ok _ => .ok ()

/-- Embedding of `UnprocessedImageRefs`: the Go map `imgRefs` is modelled as
an association list from key to record (insertion overwrites the binding of
an existing key). -/
structure UnprocessedImageRefs where
  imgRefs : List (String × UnprocessedImageRef)
deriving DecidableEq, Repr

/-- Embedding of `NewUnprocessedImageRefs`: the empty set. -/
def NewUnprocessedImageRefs : UnprocessedImageRefs := ⟨[]⟩

/-- Go map assignment `m[k] = v`: replace the binding of `k` if present,
otherwise add one. -/
def insertKV (k : String) (v : UnprocessedImageRef) :
    List (String × UnprocessedImageRef) → List (String × UnprocessedImageRef)
  | [] => [(k, v)]
  | (k', v') :: rest =>
    if k' = k then (k, v) :: rest else (k', v') :: insertKV k v rest

/-- Embedding of `UnprocessedImageRefs.Add`: validate (which may panic), then
insert under the record's `Key`. -/
def UnprocessedImageRefs.Add (i : UnprocessedImageRefs)
    (imgRef : UnprocessedImageRef) : GoResult UnprocessedImageRefs :=
  match imgRef.Validate with
  | .panicked m => .panicked m
  | .error e => .error e
  | .ok _ => .ok ⟨insertKV imgRef.Key imgRef i.imgRefs⟩

/-- Embedding of `UnprocessedImageRefs.Length`. -/
def UnprocessedImageRefs.Length (i : UnprocessedImageRefs) : Nat :=
  i.imgRefs.length

/-- The ascending-by-`DigestRef` order both sets sort their entries by. -/
def digestLE (a b : UnprocessedImageRef) : Prop := a.DigestRef ≤ b.DigestRef

instance : DecidableRel digestLE := fun a b =>
  decidable_of_iff (¬ (b.DigestRef.toList < a.DigestRef.toList))
    (by rw [← String.lt_iff_toList_lt]; exact Iff.rfl)

instance : IsTotal UnprocessedImageRef digestLE :=
  ⟨fun a b => le_total a.DigestRef b.DigestRef⟩

instance : IsTrans UnprocessedImageRef digestLE :=
  ⟨fun _ _ _ hab hbc => le_trans hab hbc⟩

/-- Embedding of `UnprocessedImageRefs.All`: collect the map's values and
sort ascending by `DigestRef`.  Go's `sort.Slice` is an unspecified sort with
a `<` comparator; a structural insertion sort models one valid outcome. -/
def UnprocessedImageRefs.All (i : UnprocessedImageRefs) :
    List UnprocessedImageRef :=
  List.insertionSort digestLE (i.imgRefs.map Prod.snd)

/-- Lookup a record by key in the set (Go `i.imgRefs[k]`). -/
def UnprocessedImageRefs.lookupRef (i : UnprocessedImageRefs) (k : String) :
    Option UnprocessedImageRef :=
  i.imgRefs.lookup k

/-- Well-formedness of the map model: each key has at most one binding, as in
a Go map. -/
def UnprocessedImageRefs.WF (i : UnprocessedImageRefs) : Prop :=
  (i.imgRefs.map Prod.fst).Nodup

/-- Modelled from the spec: the well-known bundle label `dev.carvel.imgpkg.bundle`
that identifies a bundle image (§6 of the spec). -/
def bundleLabel : String := "dev.carvel.imgpkg.bundle"

/-- Modelled from the spec: the root-bundle marker label that identifies the
user-seeded root bundle among the copied images (§6 of the spec names a second
marker label; its exact string is not fixed by the spec). -/
def rootBundleLabel : String := "dev.carvel.imgpkg.copied-root-bundle"

/-- A fetched OCI image, with just what the bundle detector inspects: the
config labels, and a possible registry-read failure when fetching the
config.  Go's image value is an interface; this model carries the data the
embedded code paths consult. -/
structure Image where
  configLabels : List (String × String)
  configFetchErr : Option String
deriving DecidableEq, Repr

/-- An OCI image index.  The embedded code never inspects an index beyond
whether one is present. -/
structure ImageIndex where
  digest : String
deriving DecidableEq, Repr

/-- Modelled from the spec: the bundle detector `bundle.IsBundle` (its code
is outside the two embedded files).  It fetches the image config and reports
whether the well-known bundle label is present with value "true"; registry
read errors propagate (§4.3 of the spec). -/
def Bundle.IsBundle (img : Image) : Except String Bool :=
  match img.configFetchErr with
  | some e => .error e
  | none => .ok (img.configLabels.lookup bundleLabel == some "true")

/-- Embedding of `imageset.ProcessedImage`: the source record, the
destination digest reference, and the fetched image or image index.  In Go
`Image` is nil exactly when `ImageIndex` is populated and is never inspected
in that case, so it is kept total here. -/
structure ProcessedImage where
  UnprocessedImageRef : UnprocessedImageRef
  DigestRef : String
  Image : Image
  ImageIndex : Option ImageIndex
deriving DecidableEq, Repr

/-- Modelled from the spec: `v1.IsRootBundle` (outside the embedded files)
recognises the user-seeded root bundle by the presence of the root-bundle
marker label on the source record (§6 of the spec). -/
def IsRootBundle (pi : ProcessedImage) : Bool :=
  (pi.UnprocessedImageRef.LabelValue rootBundleLabel).2

/-- Modelled from the spec: `imageset.ProcessedImages` (outside the embedded
files), a set of processed images; enumeration is sorted ascending by
`digest_ref` (§3 of the spec). -/
structure ProcessedImages where
  imgs : List ProcessedImage
deriving DecidableEq, Repr

/-- The ascending-by-destination-digest order of `ProcessedImages.All`. -/
def processedLE (a b : ProcessedImage) : Prop := a.DigestRef ≤ b.DigestRef

instance : DecidableRel processedLE := fun a b =>
  decidable_of_iff (¬ (b.DigestRef.toList < a.DigestRef.toList))
    (by rw [← String.lt_iff_toList_lt]; exact Iff.rfl)

/-- Modelled from the spec: `ProcessedImages.All` returns the entries sorted
ascending by `digest_ref` for deterministic output (§3 of the spec). -/
def ProcessedImages.All (p : ProcessedImages) : List ProcessedImage :=
  List.insertionSort processedLE p.imgs

/-- Modelled from the spec: `ProcessedImages.FindByURL` matches on
`digest_ref` only, the tag is ignored (§4.2 of the spec); it returns the
entry whose source digest equals the argument's `DigestRef`.  Go's
`(ProcessedImage, bool)` return is modelled as an `Option`. -/
def ProcessedImages.FindByURL (p : ProcessedImages) (u : UnprocessedImageRef) :
    Option ProcessedImage :=
  p.All.find? (fun pi => pi.UnprocessedImageRef.DigestRef == u.DigestRef)

/-- Modelled from the spec: `lockconfig` api-version and kind constants for
the two lock shapes (§3 of the spec fixes the kinds; the api-version string
is not fixed by the spec). -/
def ImagesLockAPIVersion : String := "imgpkg.carvel.dev/v1alpha1"

/-- Modelled from the spec: the `ImagesLock` kind string. -/
def ImagesLockKind : String := "ImagesLock"

/-- Modelled from the spec: the `BundleLock` api-version string. -/
def BundleLockAPIVersion : String := "imgpkg.carvel.dev/v1alpha1"

/-- Modelled from the spec: the `BundleLock` kind string. -/
def BundleLockKind : String := "BundleLock"

/-- Modelled from the spec: a `lockconfig.ImageRef` entry of an `ImagesLock`
(just the `image` field, §3 of the spec). -/
structure ImageRef where
  Image : String
deriving DecidableEq, Repr

/-- Modelled from the spec: `lockconfig.ImagesLock` (§3 of the spec). -/
structure ImagesLock where
  APIVersion : String
  Kind : String
  Images : List ImageRef
deriving DecidableEq, Repr

/-- Modelled from the spec: `lockconfig.BundleLock` (§3 of the spec). -/
structure BundleLock where
  APIVersion : String
  Kind : String
  Image : String
  Tag : String
deriving DecidableEq, Repr

/-- The lock artifact a run writes to the lock-output path, when any. -/
inductive LockOutput where
  | imagesLock : ImagesLock → LockOutput
  | bundleLock : BundleLock → LockOutput
deriving DecidableEq, Repr

/-- Modelled from the spec: the tar flags of the copy command (`--tar`,
`--to-tar`, `--resume`; the flag structs live outside the embedded files but
their fields are read by the embedded `Run`). -/
structure TarFlags where
  TarSrc : String
  TarDst : String
  Resume : Bool
deriving DecidableEq, Repr

/-- `TarFlags.IsSrc`: a tar source path was given. -/
def TarFlags.IsSrc (t : TarFlags) : Bool := t.TarSrc != ""

/-- `TarFlags.IsDst`: a tar destination path was given. -/
def TarFlags.IsDst (t : TarFlags) : Bool := t.TarDst != ""

/-- Modelled from the spec: the `--image` flag value. -/
structure ImageFlags where
  Image : String
deriving DecidableEq, Repr

/-- Modelled from the spec: the `--bundle` flag value. -/
structure BundleFlags where
  Bundle : String
deriving DecidableEq, Repr

/-- Modelled from the spec: the `--lock` (lock input) flag value. -/
structure LockInputFlags where
  LockFilePath : String
deriving DecidableEq, Repr

/-- Modelled from the spec: the `--lock-output` flag value. -/
structure LockOutputFlags where
  LockFilePath : String
deriving DecidableEq, Repr

/-- Embedding of `CopyOptions` (package `cmd`), restricted to the fields the
embedded control flow reads. -/
structure CopyOptions where
  ImageFlags : ImageFlags
  BundleFlags : BundleFlags
  LockInputFlags : LockInputFlags
  LockOutputFlags : LockOutputFlags
  TarFlags : TarFlags
  RepoDst : String
  Concurrency : Int
  IncludeNonDistributable : Bool
  UseRepoBasedTags : Bool
deriving DecidableEq, Repr

/-- Oracle results of the external collaborators `Run` calls: registry
construction, `v1.CopyToTar`, `v1.CopyToRepository` and
`lockconfig.NewImagesLockFromPath`.  Passing them as data keeps the
orchestration a pure function and lets theorems quantify over every outcome
of the environment. -/
structure Env where
  newSimpleRegistry : Except String Unit
  copyToTar : Except String Unit
  copyToRepository : Except String ProcessedImages
  readImagesLock : Except String ImagesLock

/-- Embedding of `CopyOptions.isRepoDst`. -/
def CopyOptions.isRepoDst (c : CopyOptions) : Bool := c.RepoDst != ""

/-- Embedding of `CopyOptions.hasOneDst`: exactly one of repo / tar
destination is set. -/
def CopyOptions.hasOneDst (c : CopyOptions) : Bool :=
  let repoSet := c.isRepoDst
  let tarSet := c.TarFlags.IsDst
  (repoSet || tarSet) && !(repoSet && tarSet)

/-- The loop body of `hasOneSrc`: `seen` starts false; a second non-empty
reference returns false immediately. -/
def hasOneSrcLoop : Bool → List String → Bool
  | seen, [] => seen
  | seen, ref :: rest =>
    if ref != "" then
      if seen then false else hasOneSrcLoop true rest
    else hasOneSrcLoop seen rest

/-- Embedding of `CopyOptions.hasOneSrc`: exactly one of lock file, tar
source, bundle, image is non-empty. -/
def CopyOptions.hasOneSrc (c : CopyOptions) : Bool :=
  hasOneSrcLoop false
    [c.LockInputFlags.LockFilePath, c.TarFlags.TarSrc,
     c.BundleFlags.Bundle, c.ImageFlags.Image]

/-- The loop of `findProcessedImageRootBundle`: scan for root-bundle-labelled
entries, panicking on a second hit. -/
def findRootBundleLoop :
    Option ProcessedImage → List ProcessedImage → GoResult (Option ProcessedImage)
  | acc, [] => .ok acc
  | acc, pi :: rest =>
    if IsRootBundle pi then
      match acc with
      | some _ => .panicked "Internal inconsistency: expected only 1 root bundle"
      | none => findRootBundleLoop (some pi) rest
    else findRootBundleLoop acc rest

/-- Embedding of `CopyOptions.findProcessedImageRootBundle`: scan
`processedImages.All()` for the root bundle; a second root bundle panics. -/
def findProcessedImageRootBundle (processedImages : ProcessedImages) :
    GoResult (Option ProcessedImage) :=
  findRootBundleLoop none processedImages.All

/-- The loop of `informUserIfTarballNeedsToBeRecreated`: image indices are
skipped; a detector error is wrapped and returned; a detected bundle yields
the root-bundle-indeterminate error. -/
def informLoop : List ProcessedImage → GoResult Unit
  | [] => .ok ()
  | item :: rest =>
    if item.ImageIndex.isSome then informLoop rest
    else
      match Bundle.IsBundle item.Image with
      | .error e => .error ("Check if '" ++ item.DigestRef ++ "' is bundle: " ++ e)
      | .ok true =>
        .error "Unable to determine correct root bundle to use for lock-output. hint: if copying from a tarball, try re-generating the tarball"
      | .ok false => informLoop rest

/-- Embedding of `CopyOptions.informUserIfTarballNeedsToBeRecreated`. -/
def informUserIfTarballNeedsToBeRecreated (processedImages : ProcessedImages) :
    GoResult Unit :=
  informLoop processedImages.All

/-- The rewrite loop of `writeImagesLockOutput`: rewrite each input entry's
`image` field to the destination digest found by `FindByURL` on the source
digest; the first entry without a processed image aborts with the
image-not-copied error. -/
def rewriteImagesLoop (processedImages : ProcessedImages) :
    List ImageRef → GoResult (List ImageRef)
  | [] => .ok []
  | e :: rest =>
    match processedImages.FindByURL
        { DigestRef := e.Image, Tag := "", Labels := none, OrigRef := "" } with
    | none => .error ("Expected image '" ++ e.Image ++ "' to have been copied but was not")
    | some img =>
      (rewriteImagesLoop processedImages rest).map
        (fun rest' => { Image := img.DigestRef } :: rest')

/-- Embedding of `CopyOptions.writeImagesLockOutput`.  `WriteToPath` is
modelled by returning the `ImagesLock` value that would be written; an
`.error` result means no file is written. -/
def writeImagesLockOutput (c : CopyOptions) (env : Env)
    (processedImages : ProcessedImages) : GoResult ImagesLock :=
  if c.LockInputFlags.LockFilePath != "" then
    match env.readImagesLock with
    | .error e => .error e
    | .ok inputLock =>
      (rewriteImagesLoop processedImages inputLock.Images).map
        (fun imgs => { inputLock with Images := imgs })
  else
    .ok
      { APIVersion := ImagesLockAPIVersion
        Kind := ImagesLockKind
        Images := processedImages.All.map (fun img => { Image := img.DigestRef }) }

/-- Embedding of `CopyOptions.writeBundleLockOutput`: the `BundleLock` that
would be written for the found root bundle. -/
def writeBundleLockOutput (rb : ProcessedImage) : BundleLock :=
  { APIVersion := BundleLockAPIVersion
    Kind := BundleLockKind
    Image := rb.DigestRef
    Tag := rb.UnprocessedImageRef.Tag }

/-- Embedding of `CopyOptions.writeLockOutput`: nothing is written without a
lock-output path; a found root bundle is re-verified (an image index or a
failed re-verification panics) and yields a `BundleLock`; otherwise the
tarball-recreation check runs and an `ImagesLock` is written. -/
def writeLockOutput (c : CopyOptions) (env : Env)
    (processedImages : ProcessedImages) : GoResult (Option LockOutput) :=
  if c.LockOutputFlags.LockFilePath == "" then .ok none
  else
    (findProcessedImageRootBundle processedImages).bind (fun found =>
      match found with
      | some rb =>
        if rb.ImageIndex.isSome then
          .panicked ("Internal inconsistency: '" ++ rb.DigestRef ++ "' should be a bundle but it is not")
        else
          match Bundle.IsBundle rb.Image with
          | .error e => .error ("Check if '" ++ rb.DigestRef ++ "' is bundle: " ++ e)
          | .ok false =>
            .panicked ("Internal inconsistency: '" ++ rb.DigestRef ++ "' should be a bundle but it is not")
          | .ok true => .ok (some (.bundleLock (writeBundleLockOutput rb)))
      | none =>
        (informUserIfTarballNeedsToBeRecreated processedImages).bind (fun _ =>
          (writeImagesLockOutput c env processedImages).map
            (fun lk => some (.imagesLock lk))))

/-- What a successful `Run` produced that the theorems observe: the lock
artifact written to the lock-output path, if any. -/
structure RunOutcome where
  lockOutput : Option LockOutput
deriving DecidableEq, Repr

/-- Embedding of `CopyOptions.Run`: source and destination validation, then
the tar-destination or repo-destination branch.  The external calls are the
oracles of `env`; the unreachable default branch of the Go switch panics. -/
def CopyOptions.Run (c : CopyOptions) (env : Env) : GoResult RunOutcome :=
  if !c.hasOneSrc then
    .error "Expected either --lock, --bundle (-b), --image (-i), or --tar as a source"
  else if !c.hasOneDst then
    .error "Expected either --to-tar or --to-repo"
  else
    match env.newSimpleRegistry with
    | .error e => .error e
    | .ok _ =>
      if c.TarFlags.IsDst then
        if c.TarFlags.IsSrc then
          .error "Cannot use tar source (--tar) with tar destination (--to-tar)"
        else if c.LockOutputFlags.LockFilePath != "" then
          .error "Cannot output lock file with tar destination"
        else
          match env.copyToTar with
          | .error e => .error e
          | .ok _ => .ok { lockOutput := none }
      else if c.isRepoDst then
        if c.TarFlags.Resume then
          .error "Flag --resume can only be used when copying to tar"
        else
          match env.copyToRepository with
          | .error e => .error e
          | .ok processedImages =>
            (writeLockOutput c env processedImages).map
              (fun lo => { lockOutput := lo })
      else .panicked "Unreachable"

/-- Well-formedness strengthened with the invariant every `Add` maintains:
each binding's key is its record's `Key`. -/
def UnprocessedImageRefs.Keyed (i : UnprocessedImageRefs) : Prop :=
  i.WF ∧ ∀ p ∈ i.imgRefs, p.1 = p.2.Key

/-- Decidable equality for `Except`, so concrete oracle outcomes can be
checked by `decide`. -/
instance {ε α : Type} [DecidableEq ε] [DecidableEq α] :
    DecidableEq (Except ε α) := fun a b =>
  match a, b with
  | .ok x, .ok y =>
    if h : x = y then .isTrue (by rw [h]) else .isFalse (by intro hc; cases hc; exact h rfl)
  | .error x, .error y =>
    if h : x = y then .isTrue (by rw [h]) else .isFalse (by intro hc; cases hc; exact h rfl)
  | .ok _, .error _ => .isFalse (by intro hc; cases hc)
  | .error _, .ok _ => .isFalse (by intro hc; cases hc)

/-- A valid digested reference used by concrete witnesses. -/
def digA : String :=
  "registry.a/app@sha256:aaaaaaaaaaaaaaaaaaaaaaaaaaaaaaaaaaaaaaaaaaaaaaaaaaaaaaaaaaaaaaaa"

/-- A second valid digested reference (same sha256, different repository). -/
def digB : String :=
  "registry.b/app@sha256:aaaaaaaaaaaaaaaaaaaaaaaaaaaaaaaaaaaaaaaaaaaaaaaaaaaaaaaaaaaaaaaa"

/-- The destination digest `writeImagesLockOutput` rewrites an input entry
to: the `DigestRef` of the processed image found by `FindByURL` on the
entry's source digest. -/
def findDigest (p : ProcessedImages) (s : String) : Option String :=
  (p.FindByURL { DigestRef := s, Tag := "", Labels := none, OrigRef := "" }).map
    ProcessedImage.DigestRef

/-- A plain (non-bundle) fetched image for witnesses. -/
def imgPlain : Image := { configLabels := [], configFetchErr := none }

/-- A processed image mapping source `digA` to destination `digB`. -/
def piAB : ProcessedImage :=
  { UnprocessedImageRef :=
      { DigestRef := digA, Tag := "t", Labels := none, OrigRef := "" }
    DigestRef := digB
    Image := imgPlain
    ImageIndex := none }

/-- A one-element processed set for the C2 witness. -/
def p2w : ProcessedImages := ⟨[piAB]⟩

/-- The user-supplied input lock for the C2 witness. -/
def lk2w : ImagesLock :=
  { APIVersion := ImagesLockAPIVersion, Kind := ImagesLockKind,
    Images := [{ Image := digA }] }

/-- Copy options with a lock input path, for the C2 witness. -/
def c2w : CopyOptions :=
  { ImageFlags := ⟨""⟩, BundleFlags := ⟨""⟩, LockInputFlags := ⟨"images.yml"⟩,
    LockOutputFlags := ⟨"out.yml"⟩, TarFlags := ⟨"", "", false⟩,
    RepoDst := "dst.io/repo", Concurrency := 5,
    IncludeNonDistributable := false, UseRepoBasedTags := false }

/-- Environment whose lock-file oracle returns the C2 input lock. -/
def env2w : Env :=
  { newSimpleRegistry := .ok (), copyToTar := .ok (),
    copyToRepository := .ok p2w, readImagesLock := .ok lk2w }

/-- The root-bundle-indeterminate error message of
`informUserIfTarballNeedsToBeRecreated`. -/
def indeterminateMsg : String :=
  "Unable to determine correct root bundle to use for lock-output. hint: if copying from a tarball, try re-generating the tarball"

/-- A source record carrying the root-bundle marker label. -/
def rootLabelled (orig : String) : UnprocessedImageRef :=
  { DigestRef := digA, Tag := "t", Labels := some [(rootBundleLabel, "")],
    OrigRef := orig }

/-- A processed image whose source carries the root-bundle marker. -/
def piRoot (orig dst : String) : ProcessedImage :=
  { UnprocessedImageRef := rootLabelled orig, DigestRef := dst,
    Image := imgPlain, ImageIndex := none }

/-- Two root-labelled processed images: the C3 counterexample set. -/
def p3c : ProcessedImages := ⟨[piRoot "a" digA, piRoot "b" digB]⟩

/-- Copy options requesting a lock output, for C3 and C4. -/
def c3c : CopyOptions :=
  { ImageFlags := ⟨""⟩, BundleFlags := ⟨""⟩, LockInputFlags := ⟨""⟩,
    LockOutputFlags := ⟨"lock.yml"⟩, TarFlags := ⟨"", "", false⟩,
    RepoDst := "dst.io/repo", Concurrency := 5,
    IncludeNonDistributable := false, UseRepoBasedTags := false }

/-- An environment of successful oracles, for C3 and C4. -/
def env3w : Env :=
  { newSimpleRegistry := .ok (), copyToTar := .ok (),
    copyToRepository := .ok ⟨[]⟩, readImagesLock := .ok ⟨"", "", []⟩ }

/-- A single root-labelled processed image that fails re-verification (its
config has no bundle label). -/
def p3w : ProcessedImages := ⟨[piRoot "a" digB]⟩

/-- A fetched image whose config carries the bundle label. -/
def imgBundle : Image :=
  { configLabels := [(bundleLabel, "true")], configFetchErr := none }

/-- A processed bundle image without any root-bundle marker: the tarball
predates root labelling. -/
def piOldBundle : ProcessedImage :=
  { UnprocessedImageRef :=
      { DigestRef := digA, Tag := "t", Labels := some [], OrigRef := "" }
    DigestRef := digB
    Image := imgBundle
    ImageIndex := none }

/-- The C4 witness set: one unlabelled bundle image. -/
def p4w : ProcessedImages := ⟨[piOldBundle]⟩

/-- Witness record 1 for C5. -/
def r1c : UnprocessedImageRef :=
  { DigestRef := digA, Tag := "t", Labels := none, OrigRef := "one" }

/-- Witness record 2 for C5: same key as `r1c`, different record. -/
def r2c : UnprocessedImageRef :=
  { DigestRef := digA, Tag := "t", Labels := none, OrigRef := "two" }

/-- The set after adding `r1c` to the empty set. -/
def s1c : UnprocessedImageRefs := ⟨[(r1c.Key, r1c)]⟩

/-- The set after then adding `r2c`. -/
def s2c : UnprocessedImageRefs := ⟨[(r2c.Key, r2c)]⟩

/-- A record with one label binding, for the C10 witness. -/
def uLab : UnprocessedImageRef :=
  { DigestRef := "", Tag := "", Labels := some [("k", "v")], OrigRef := "" }

/-- A record with a nil labels map, for the C10 witness. -/
def uNil : UnprocessedImageRef :=
  { DigestRef := "", Tag := "", Labels := none, OrigRef := "" }

/-- Copy options with zero sources and a repo destination (C7 witness). -/
def c7a : CopyOptions :=
  { ImageFlags := ⟨""⟩, BundleFlags := ⟨""⟩, LockInputFlags := ⟨""⟩,
    LockOutputFlags := ⟨""⟩, TarFlags := ⟨"", "", false⟩,
    RepoDst := "dst.io/repo", Concurrency := 5,
    IncludeNonDistributable := false, UseRepoBasedTags := false }

/-- Copy options with one source and zero destinations (C7 witness). -/
def c7b : CopyOptions :=
  { ImageFlags := ⟨"src.io/app"⟩, BundleFlags := ⟨""⟩, LockInputFlags := ⟨""⟩,
    LockOutputFlags := ⟨""⟩, TarFlags := ⟨"", "", false⟩,
    RepoDst := "", Concurrency := 5,
    IncludeNonDistributable := false, UseRepoBasedTags := false }

/-- Copy options asking for resume with a repo destination (C8 witness). -/
def c8a : CopyOptions :=
  { ImageFlags := ⟨"src.io/app"⟩, BundleFlags := ⟨""⟩, LockInputFlags := ⟨""⟩,
    LockOutputFlags := ⟨""⟩, TarFlags := ⟨"", "", true⟩,
    RepoDst := "dst.io/repo", Concurrency := 5,
    IncludeNonDistributable := false, UseRepoBasedTags := false }

/-- Copy options asking for resume with a tar destination (C8 witness). -/
def c8b : CopyOptions :=
  { ImageFlags := ⟨"src.io/app"⟩, BundleFlags := ⟨""⟩, LockInputFlags := ⟨""⟩,
    LockOutputFlags := ⟨""⟩, TarFlags := ⟨"", "out.tar", true⟩,
    RepoDst := "", Concurrency := 5,
    IncludeNonDistributable := false, UseRepoBasedTags := false }

/-- Copy options combining a tar destination with lock output (C9 witness). -/
def c9a : CopyOptions :=
  { ImageFlags := ⟨"src.io/app"⟩, BundleFlags := ⟨""⟩, LockInputFlags := ⟨""⟩,
    LockOutputFlags := ⟨"lock.yml"⟩, TarFlags := ⟨"", "out.tar", false⟩,
    RepoDst := "", Concurrency := 5,
    IncludeNonDistributable := false, UseRepoBasedTags := false }

/-- Copy options combining a tar source with a tar destination (C9 witness). -/
def c9b : CopyOptions :=
  { ImageFlags := ⟨""⟩, BundleFlags := ⟨""⟩, LockInputFlags := ⟨""⟩,
    LockOutputFlags := ⟨""⟩, TarFlags := ⟨"in.tar", "out.tar", false⟩,
    RepoDst := "", Concurrency := 5,
    IncludeNonDistributable := false, UseRepoBasedTags := false }

/-! Helper lemmas about the association-list model of the Go map. -/

theorem lookup_insertKV_self (k : String) (v : UnprocessedImageRef)
    (l : List (String × UnprocessedImageRef)) :
    List.lookup k (insertKV k v l) = some v := by
  induction l with
  | nil => simp [insertKV, List.lookup]
  | cons hd tl ih =>
    obtain ⟨k', v'⟩ := hd
    by_cases h : k' = k
    · simp [insertKV, h, List.lookup]
    · simp [insertKV, h, List.lookup, beq_eq_false_iff_ne.mpr (Ne.symm h), ih]

theorem lookup_insertKV_ne (k k' : String) (v : UnprocessedImageRef)
    (l : List (String × UnprocessedImageRef)) (h : k' ≠ k) :
    List.lookup k' (insertKV k v l) = List.lookup k' l := by
  induction l with
  | nil => simp [insertKV, List.lookup, beq_eq_false_iff_ne.mpr h]
  | cons hd tl ih =>
    obtain ⟨a, b⟩ := hd
    by_cases hak : a = k
    · subst hak
      simp [insertKV, List.lookup, beq_eq_false_iff_ne.mpr h]
    · simp only [insertKV, if_neg hak]
      by_cases hka : k' = a
      · subst hka
        simp [List.lookup]
      · simp [List.lookup, beq_eq_false_iff_ne.mpr hka, ih]

theorem length_insertKV_of_mem (k : String) (v : UnprocessedImageRef)
    (l : List (String × UnprocessedImageRef)) (h : (List.lookup k l).isSome) :
    (insertKV k v l).length = l.length := by
  induction l with
  | nil => simp [List.lookup] at h
  | cons hd tl ih =>
    obtain ⟨a, b⟩ := hd
    by_cases hak : a = k
    · simp [insertKV, hak]
    · have h' : (List.lookup k tl).isSome := by
        simpa [List.lookup, beq_eq_false_iff_ne.mpr (Ne.symm hak)] using h
      simp [insertKV, hak, ih h']

theorem mem_insertKV_sub {p : String × UnprocessedImageRef} (k : String)
    (v : UnprocessedImageRef) (l : List (String × UnprocessedImageRef))
    (h : p ∈ insertKV k v l) : p = (k, v) ∨ p ∈ l := by
  induction l with
  | nil => simpa [insertKV] using h
  | cons hd tl ih =>
    obtain ⟨a, b⟩ := hd
    by_cases hak : a = k
    · simp only [insertKV, if_pos hak] at h
      rcases List.mem_cons.mp h with h1 | h2
      · exact Or.inl h1
      · exact Or.inr (List.mem_cons_of_mem _ h2)
    · simp only [insertKV, if_neg hak] at h
      rcases List.mem_cons.mp h with h1 | h2
      · exact Or.inr (h1 ▸ List.mem_cons_self _ _)
      · rcases ih h2 with h3 | h4
        · exact Or.inl h3
        · exact Or.inr (List.mem_cons_of_mem _ h4)

theorem nodupKeys_insertKV (k : String) (v : UnprocessedImageRef)
    (l : List (String × UnprocessedImageRef))
    (h : (l.map Prod.fst).Nodup) : ((insertKV k v l).map Prod.fst).Nodup := by
  induction l with
  | nil => simp [insertKV]
  | cons hd tl ih =>
    obtain ⟨a, b⟩ := hd
    simp only [List.map_cons, List.nodup_cons] at h
    by_cases hak : a = k
    · subst hak
      simpa [insertKV, List.nodup_cons] using h
    · simp only [insertKV, if_neg hak, List.map_cons, List.nodup_cons]
      refine ⟨fun hmem => ?_, ih h.2⟩
      rcases List.mem_map.mp hmem with ⟨q, hq, hqa⟩
      rcases mem_insertKV_sub k v tl hq with h1 | h2
      · exact hak (by rw [h1] at hqa; exact hqa.symm ▸ rfl)
      · exact h.1 (hqa ▸ List.mem_map_of_mem Prod.fst h2)

theorem mem_insertKV_self_eq (k : String) (v w : UnprocessedImageRef)
    (l : List (String × UnprocessedImageRef)) (hnd : (l.map Prod.fst).Nodup)
    (h : (k, w) ∈ insertKV k v l) : w = v := by
  induction l with
  | nil =>
    simp only [insertKV, List.mem_singleton, Prod.mk.injEq] at h
    exact h.2
  | cons hd tl ih =>
    obtain ⟨a, b⟩ := hd
    simp only [List.map_cons, List.nodup_cons] at hnd
    by_cases hak : a = k
    · subst hak
      simp only [insertKV, if_pos rfl] at h
      rcases List.mem_cons.mp h with h1 | h2
      · exact (Prod.mk.injEq _ _ _ _ ▸ h1).2
      · exact absurd (List.mem_map_of_mem Prod.fst h2) hnd.1
    · simp only [insertKV, if_neg hak] at h
      rcases List.mem_cons.mp h with h1 | h2
      · exact absurd ((Prod.mk.injEq _ _ _ _ ▸ h1).1.symm) hak
      · exact ih hnd.2 h2

theorem Keyed_Add {s s' : UnprocessedImageRefs} {r : UnprocessedImageRef}
    (hk : s.Keyed) (h : s.Add r = .ok s') : s'.Keyed := by
  have hs' : s'.imgRefs = insertKV r.Key r s.imgRefs := by
    unfold UnprocessedImageRefs.Add at h
    cases hv : r.Validate with
    | ok u => rw [hv] at h; cases h; rfl
    | error e => rw [hv] at h; cases h
    | panicked m => rw [hv] at h; cases h
  constructor
  · show (s'.imgRefs.map Prod.fst).Nodup
    rw [hs']
    exact nodupKeys_insertKV _ _ _ hk.1
  · intro p hp
    rw [hs'] at hp
    rcases mem_insertKV_sub _ _ _ hp with h1 | h2
    · rw [h1]
    · exact hk.2 p h2

/-- Keys are injective on records with equal tags and distinct digests:
`d ++ ":" ++ t` determines `d` when `t` is fixed. -/
theorem Key_ne_of_DigestRef_ne {r1 r2 : UnprocessedImageRef}
    (ht : r1.Tag = r2.Tag) (hd : r1.DigestRef ≠ r2.DigestRef) :
    r1.Key ≠ r2.Key := by
  intro h
  apply hd
  unfold UnprocessedImageRef.Key at h
  rw [ht] at h
  have hdata := congrArg String.data h
  rw [String.data_append, String.data_append, String.data_append,
    String.data_append] at hdata
  exact String.ext (List.append_cancel_right (List.append_cancel_right hdata))

theorem Add_ok_imgRefs {s s' : UnprocessedImageRefs} {r : UnprocessedImageRef}
    (h : s.Add r = .ok s') : s'.imgRefs = insertKV r.Key r s.imgRefs := by
  unfold UnprocessedImageRefs.Add at h
  cases hv : r.Validate with
  | ok u => rw [hv] at h; cases h; rfl
  | error e => rw [hv] at h; cases h
  | panicked m => rw [hv] at h; cases h

theorem rewriteImagesLoop_all_found (p : ProcessedImages) :
    ∀ L : List ImageRef,
    (∀ e ∈ L, (findDigest p e.Image).isSome) →
    rewriteImagesLoop p L =
      .ok (L.map fun e => { Image := (findDigest p e.Image).getD "" }) := by
  intro L
  induction L with
  | nil => intro _; rfl
  | cons e rest ih =>
    intro h
    have he := h e (List.mem_cons_self _ _)
    cases hf : p.FindByURL
        { DigestRef := e.Image, Tag := "", Labels := none, OrigRef := "" } with
    | none => rw [findDigest, hf] at he; cases he
    | some img =>
      have hrest := ih (fun x hx => h x (List.mem_cons_of_mem _ hx))
      simp only [rewriteImagesLoop, hf, hrest, GoResult.map, List.map_cons]
      rw [findDigest, hf]
      rfl

theorem rewriteImagesLoop_missing (p : ProcessedImages) :
    ∀ L : List ImageRef,
    (∃ e ∈ L, findDigest p e.Image = none) →
    ∃ e ∈ L, rewriteImagesLoop p L =
      .error ("Expected image '" ++ e.Image ++ "' to have been copied but was not") := by
  intro L
  induction L with
  | nil => rintro ⟨e, he, _⟩; cases he
  | cons a rest ih =>
    rintro ⟨e, he, hnone⟩
    cases hf : p.FindByURL
        { DigestRef := a.Image, Tag := "", Labels := none, OrigRef := "" } with
    | none =>
      refine ⟨a, List.mem_cons_self _ _, ?_⟩
      simp only [rewriteImagesLoop, hf]
    | some img =>
      have hin : e ∈ rest := by
        rcases List.mem_cons.mp he with h1 | h2
        · exfalso
          rw [h1, findDigest, hf] at hnone
          cases hnone
        · exact h2
      rcases ih ⟨e, hin, hnone⟩ with ⟨e', he', hloop⟩
      refine ⟨e', List.mem_cons_of_mem _ he', ?_⟩
      simp only [rewriteImagesLoop, hf, hloop, GoResult.map]

/-- Claim C2: with a user-supplied ImagesLock input, the written ImagesLock
keeps the input entries in order with each `image` field rewritten to the
destination digest found by `FindByURL` on the source digest; a missing
processed image fails with the image-not-copied error (so nothing is
written); without a lock input, all processed images are listed in the
set's sorted digest order. -/
theorem C2_images_lock_output :
    ∀ (c : CopyOptions) (env : Env) (p : ProcessedImages) (lk : ImagesLock),
    (c.LockInputFlags.LockFilePath ≠ "" →
     env.readImagesLock = .ok lk →
     ((∀ e ∈ lk.Images, (findDigest p e.Image).isSome) →
        writeImagesLockOutput c env p =
          .ok { lk with
                Images := lk.Images.map
                  (fun e => { Image := (findDigest p e.Image).getD "" }) }) ∧
     ((∃ e ∈ lk.Images, findDigest p e.Image = none) →
        ∃ e ∈ lk.Images, writeImagesLockOutput c env p =
          .error ("Expected image '" ++ e.Image ++ "' to have been copied but was not"))) ∧
    (c.LockInputFlags.LockFilePath = "" →
      writeImagesLockOutput c env p =
        .ok { APIVersion := ImagesLockAPIVersion
              Kind := ImagesLockKind
              Images := p.All.map (fun img => { Image := img.DigestRef }) }) := by
  intro c env p lk
  constructor
  · intro hpath hread
    have hbranch : (c.LockInputFlags.LockFilePath != "") = true :=
      bne_iff_ne.mpr hpath
    constructor
    · intro hall
      simp only [writeImagesLockOutput, hbranch, if_true, hread,
        rewriteImagesLoop_all_found p lk.Images hall, GoResult.map]
    · intro hex
      rcases rewriteImagesLoop_missing p lk.Images hex with ⟨e, he, hloop⟩
      refine ⟨e, he, ?_⟩
      simp only [writeImagesLockOutput, hbranch, if_true, hread, hloop,
        GoResult.map]
  · intro hpath
    have hbranch : (c.LockInputFlags.LockFilePath != "") = false := by
      simp [hpath]
    simp only [writeImagesLockOutput, hbranch, Bool.false_eq_true, if_false]

/-- Claim C2, witness: the input-lock branch at a concrete set rewrites the
single entry to the destination digest. -/
theorem C2_witness :
    writeImagesLockOutput c2w env2w p2w =
      .ok { lk2w with
            Images := lk2w.Images.map
              (fun e => { Image := (findDigest p2w e.Image).getD "" }) } :=
  ((C2_images_lock_output c2w env2w p2w lk2w).1 (by decide) rfl).1 (by decide)

theorem findRootBundleLoop_two_panics :
    ∀ (L : List ProcessedImage) (acc : Option ProcessedImage),
    (if acc.isSome then 1 else 2) ≤ (L.filter IsRootBundle).length →
    findRootBundleLoop acc L =
      .panicked "Internal inconsistency: expected only 1 root bundle" := by
  intro L
  induction L with
  | nil => intro acc h; cases acc <;> simp at h
  | cons pi rest ih =>
    intro acc h
    by_cases hroot : IsRootBundle pi = true
    · cases acc with
      | some a => simp [findRootBundleLoop, hroot]
      | none =>
        have hlen : 1 ≤ (rest.filter IsRootBundle).length := by
          rw [List.filter_cons_of_pos hroot] at h
          simpa using Nat.le_of_succ_le_succ (by simpa using h)
        simp only [findRootBundleLoop, hroot, if_true]
        exact ih (some pi) (by simpa using hlen)
    · have hfalse : IsRootBundle pi = false := by
        cases hval : IsRootBundle pi
        · rfl
        · exact absurd hval hroot
      rw [List.filter_cons_of_neg (by simp [hfalse])] at h
      simp only [findRootBundleLoop, hfalse, Bool.false_eq_true, if_false]
      exact ih acc h

theorem findRootBundleLoop_no_roots :
    ∀ (L : List ProcessedImage) (acc : Option ProcessedImage),
    (∀ pi ∈ L, IsRootBundle pi = false) →
    findRootBundleLoop acc L = .ok acc := by
  intro L
  induction L with
  | nil => intro acc _; rfl
  | cons pi rest ih =>
    intro acc h
    have hpi := h pi (List.mem_cons_self _ _)
    simp only [findRootBundleLoop, hpi, Bool.false_eq_true, if_false]
    exact ih acc (fun x hx => h x (List.mem_cons_of_mem _ hx))

theorem informLoop_all_non_bundles :
    ∀ L : List ProcessedImage,
    (∀ pi ∈ L, pi.ImageIndex = none → Bundle.IsBundle pi.Image = .ok false) →
    informLoop L = .ok () := by
  intro L
  induction L with
  | nil => intro _; rfl
  | cons item rest ih =>
    intro h
    have hrest := fun x hx => h x (List.mem_cons_of_mem _ hx)
    cases hidx : item.ImageIndex with
    | some x => simp only [informLoop, hidx, Option.isSome_some, if_true]; exact ih hrest
    | none =>
      have hb := h item (List.mem_cons_self _ _) hidx
      simp only [informLoop, hidx, Option.isSome_none, Bool.false_eq_true, if_false, hb]
      exact ih hrest

theorem informLoop_bundle_found :
    ∀ L : List ProcessedImage,
    (∀ pi ∈ L, pi.ImageIndex = none →
      Bundle.IsBundle pi.Image = .ok true ∨ Bundle.IsBundle pi.Image = .ok false) →
    (∃ pi ∈ L, pi.ImageIndex = none ∧ Bundle.IsBundle pi.Image = .ok true) →
    informLoop L = .error indeterminateMsg := by
  intro L
  induction L with
  | nil => rintro _ ⟨pi, hpi, _⟩; cases hpi
  | cons item rest ih =>
    rintro hall ⟨pi, hpi, hidxpi, hbpi⟩
    have hallrest := fun x hx => hall x (List.mem_cons_of_mem _ hx)
    cases hidx : item.ImageIndex with
    | some x =>
      have hin : pi ∈ rest := by
        rcases List.mem_cons.mp hpi with h1 | h2
        · exfalso; rw [h1, hidx] at hidxpi; cases hidxpi
        · exact h2
      simp only [informLoop, hidx, Option.isSome_some, if_true]
      exact ih hallrest ⟨pi, hin, hidxpi, hbpi⟩
    | none =>
      rcases hall item (List.mem_cons_self _ _) hidx with hbt | hbf
      · simp only [informLoop, hidx, Option.isSome_none, Bool.false_eq_true,
          if_false, hbt]
        rfl
      · have hin : pi ∈ rest := by
          rcases List.mem_cons.mp hpi with h1 | h2
          · exfalso; rw [h1] at hbpi; rw [hbpi] at hbf; cases hbf
          · exact h2
        simp only [informLoop, hidx, Option.isSome_none, Bool.false_eq_true,
          if_false, hbf]
        exact ih hallrest ⟨pi, hin, hidxpi, hbpi⟩

/-- Claim C3, counterexample: with two root-bundle-labelled processed
images, the lock writer panics — the process aborts instead of surfacing an
error value for the caller to decide on. -/
theorem C3_counterexample :
    writeLockOutput c3c env3w p3c =
      GoResult.panicked "Internal inconsistency: expected only 1 root bundle" := by
  rfl

/-- Claim C3 as amended: at most one root bundle is an asserted invariant:
a second root-bundle entry, a root bundle with a populated image index, and
a root bundle failing re-verification each make the lock writer panic (the
Go code aborts via `panic`, it does not return an internal-inconsistency
error value). -/
theorem C3_root_bundle_invariant_panics :
    ∀ (c : CopyOptions) (env : Env) (p : ProcessedImages) (rb : ProcessedImage),
    c.LockOutputFlags.LockFilePath ≠ "" →
    ((2 ≤ (p.All.filter IsRootBundle).length →
        writeLockOutput c env p =
          .panicked "Internal inconsistency: expected only 1 root bundle") ∧
     (findProcessedImageRootBundle p = .ok (some rb) → rb.ImageIndex.isSome →
        writeLockOutput c env p =
          .panicked ("Internal inconsistency: '" ++ rb.DigestRef ++
            "' should be a bundle but it is not")) ∧
     (findProcessedImageRootBundle p = .ok (some rb) → rb.ImageIndex = none →
        Bundle.IsBundle rb.Image = .ok false →
        writeLockOutput c env p =
          .panicked ("Internal inconsistency: '" ++ rb.DigestRef ++
            "' should be a bundle but it is not"))) := by
  intro c env p rb hpath
  have hbranch : (c.LockOutputFlags.LockFilePath == "") = false :=
    beq_eq_false_iff_ne.mpr hpath
  refine ⟨?_, ?_, ?_⟩
  · intro htwo
    have hloop := findRootBundleLoop_two_panics p.All none (by simpa using htwo)
    simp only [writeLockOutput, hbranch, Bool.false_eq_true, if_false,
      findProcessedImageRootBundle, hloop, GoResult.bind]
  · intro hfound hidx
    simp only [writeLockOutput, hbranch, Bool.false_eq_true, if_false, hfound,
      GoResult.bind, hidx, if_true]
  · intro hfound hidx hbundle
    simp only [writeLockOutput, hbranch, Bool.false_eq_true, if_false, hfound,
      GoResult.bind, hidx, Option.isSome_none, Bool.false_eq_true, if_false,
      hbundle]

/-- Claim C3, witness: the amended theorem applied at a concrete set whose
single root bundle fails re-verification. -/
theorem C3_witness :
    writeLockOutput c3c env3w p3w =
      GoResult.panicked ("Internal inconsistency: '" ++ (piRoot "a" digB).DigestRef ++
        "' should be a bundle but it is not") :=
  (C3_root_bundle_invariant_panics c3c env3w p3w (piRoot "a" digB)
    (by decide)).2.2 (by decide) rfl (by decide)

/-- Claim C4: with a lock output requested, no root-bundle marker anywhere,
and the detector succeeding on every non-index image, lock writing fails
with the root-bundle-indeterminate error (telling the user to regenerate the
tarball) as soon as some non-index image is a bundle, and no lock value is
produced; when no image is a bundle, the ImagesLock writer runs instead. -/
theorem C4_indeterminate_root_bundle :
    ∀ (c : CopyOptions) (env : Env) (p : ProcessedImages),
    c.LockOutputFlags.LockFilePath ≠ "" →
    (∀ pi ∈ p.All, IsRootBundle pi = false) →
    (((∀ pi ∈ p.All, pi.ImageIndex = none →
         Bundle.IsBundle pi.Image = .ok true ∨ Bundle.IsBundle pi.Image = .ok false) →
      (∃ pi ∈ p.All, pi.ImageIndex = none ∧ Bundle.IsBundle pi.Image = .ok true) →
        writeLockOutput c env p = .error indeterminateMsg) ∧
     ((∀ pi ∈ p.All, pi.ImageIndex = none → Bundle.IsBundle pi.Image = .ok false) →
        writeLockOutput c env p =
          (writeImagesLockOutput c env p).map (fun lk => some (.imagesLock lk)))) := by
  intro c env p hpath hnoroot
  have hbranch : (c.LockOutputFlags.LockFilePath == "") = false :=
    beq_eq_false_iff_ne.mpr hpath
  have hfind : findProcessedImageRootBundle p = .ok none :=
    findRootBundleLoop_no_roots p.All none hnoroot
  constructor
  · intro hall hex
    have hinform : informLoop p.All = .error indeterminateMsg :=
      informLoop_bundle_found p.All hall hex
    simp only [writeLockOutput, hbranch, Bool.false_eq_true, if_false, hfind,
      GoResult.bind, informUserIfTarballNeedsToBeRecreated, hinform]
  · intro hall
    have hinform : informLoop p.All = .ok () :=
      informLoop_all_non_bundles p.All hall
    simp only [writeLockOutput, hbranch, Bool.false_eq_true, if_false, hfind,
      GoResult.bind, informUserIfTarballNeedsToBeRecreated, hinform]

/-- Claim C4, witness: a concrete unlabelled bundle image makes the lock
writer fail with the indeterminate error. -/
theorem C4_witness :
    writeLockOutput c3c env3w p4w = .error indeterminateMsg :=
  (C4_indeterminate_root_bundle c3c env3w p4w (by decide) (by decide)).1
    (by decide) (by decide)

theorem hasOneSrcLoop_iff :
    ∀ (L : List String) (seen : Bool),
    hasOneSrcLoop seen L = true ↔
      (L.filter (fun s => s != "")).length = (if seen then 0 else 1) := by
  intro L
  induction L with
  | nil => intro seen; cases seen <;> simp [hasOneSrcLoop]
  | cons r rest ih =>
    intro seen
    by_cases hr : r = ""
    · simp only [hasOneSrcLoop, hr, bne_self_eq_false, Bool.false_eq_true,
        if_false, List.filter_cons]
      simpa using ih seen
    · have hbr : (r != "") = true := bne_iff_ne.mpr hr
      cases seen with
      | true =>
        simp only [hasOneSrcLoop, hbr, if_true, if_false, List.filter_cons]
        simp
      | false =>
        simp only [hasOneSrcLoop, hbr, if_true, if_false, List.filter_cons]
        simpa using ih true

/-- Claim C7: `hasOneSrc` holds exactly when one of the four source flags is
non-empty and `hasOneDst` exactly when one of the two destinations is set;
whenever either fails, `Run` returns the corresponding conflict error for
every environment, so no copy is consulted. -/
theorem C7_run_validates_source_and_destination :
    ∀ (c : CopyOptions) (env : Env),
    (c.hasOneSrc = true ↔
      ([c.LockInputFlags.LockFilePath, c.TarFlags.TarSrc,
        c.BundleFlags.Bundle, c.ImageFlags.Image].filter
          (fun s => s != "")).length = 1) ∧
    (c.hasOneDst = true ↔
      ((c.RepoDst ≠ "" ∧ c.TarFlags.TarDst = "") ∨
       (c.RepoDst = "" ∧ c.TarFlags.TarDst ≠ ""))) ∧
    (c.hasOneSrc = false →
      c.Run env =
        .error "Expected either --lock, --bundle (-b), --image (-i), or --tar as a source") ∧
    (c.hasOneSrc = true → c.hasOneDst = false →
      c.Run env = .error "Expected either --to-tar or --to-repo") := by
  intro c env
  refine ⟨?_, ?_, ?_, ?_⟩
  · unfold CopyOptions.hasOneSrc
    simpa using hasOneSrcLoop_iff
      [c.LockInputFlags.LockFilePath, c.TarFlags.TarSrc,
       c.BundleFlags.Bundle, c.ImageFlags.Image] false
  · simp only [CopyOptions.hasOneDst, CopyOptions.isRepoDst, TarFlags.IsDst,
      Bool.and_eq_true, Bool.or_eq_true_iff, Bool.not_eq_true', bne_iff_ne,
      Bool.and_eq_false_iff, bne_eq_false_iff_eq]
    tauto
  · intro h
    simp [CopyOptions.Run, h]
  · intro h1 h2
    simp [CopyOptions.Run, h1, h2]

/-- Claim C7, witness: the validation errors at a zero-source and a
zero-destination configuration. -/
theorem C7_witness :
    CopyOptions.Run c7a env3w =
      .error "Expected either --lock, --bundle (-b), --image (-i), or --tar as a source" ∧
    CopyOptions.Run c7b env3w = .error "Expected either --to-tar or --to-repo" :=
  ⟨(C7_run_validates_source_and_destination c7a env3w).2.2.1 (by decide),
   (C7_run_validates_source_and_destination c7b env3w).2.2.2 (by decide) (by decide)⟩

/-- Claim C8: with one source, a working registry and a repository
destination, a set resume flag makes `Run` fail with the
resume-requires-tar-destination error in every environment (no copy); with
a tar destination instead, resume is accepted and the run proceeds to the
tar copy. -/
theorem C8_resume_requires_tar_destination :
    ∀ (c : CopyOptions) (env : Env),
    c.hasOneSrc = true →
    env.newSimpleRegistry = .ok () →
    ((c.RepoDst ≠ "" → c.TarFlags.TarDst = "" → c.TarFlags.Resume = true →
        c.Run env = .error "Flag --resume can only be used when copying to tar") ∧
     (c.TarFlags.TarDst ≠ "" → c.RepoDst = "" → c.TarFlags.TarSrc = "" →
      c.LockOutputFlags.LockFilePath = "" → c.TarFlags.Resume = true →
        ((env.copyToTar = .ok () → c.Run env = .ok { lockOutput := none }) ∧
         (∀ e, env.copyToTar = .error e → c.Run env = .error e)))) := by
  intro c env hsrc hreg
  constructor
  · intro hrd htd hres
    have hdst : c.hasOneDst = true := by
      simp [CopyOptions.hasOneDst, CopyOptions.isRepoDst, TarFlags.IsDst,
        bne_iff_ne, hrd, htd]
    have hIsDst : c.TarFlags.IsDst = false := by simp [TarFlags.IsDst, htd]
    have hRepo : c.isRepoDst = true := by
      simp [CopyOptions.isRepoDst, bne_iff_ne, hrd]
    simp [CopyOptions.Run, hsrc, hdst, hreg, hIsDst, hRepo, hres]
  · intro htd hrd hts hlo hres
    have hdst : c.hasOneDst = true := by
      simp [CopyOptions.hasOneDst, CopyOptions.isRepoDst, TarFlags.IsDst,
        bne_iff_ne, hrd, htd]
    have hIsDst : c.TarFlags.IsDst = true := by
      simp [TarFlags.IsDst, bne_iff_ne, htd]
    have hIsSrc : c.TarFlags.IsSrc = false := by simp [TarFlags.IsSrc, hts]
    constructor
    · intro hct
      simp [CopyOptions.Run, hsrc, hdst, hreg, hIsDst, hIsSrc, hlo, hct]
    · intro e hct
      simp [CopyOptions.Run, hsrc, hdst, hreg, hIsDst, hIsSrc, hlo, hct]

/-- Claim C8, witness: resume rejected at a concrete repo-destination
configuration and accepted at a tar-destination one. -/
theorem C8_witness :
    CopyOptions.Run c8a env3w =
      .error "Flag --resume can only be used when copying to tar" ∧
    CopyOptions.Run c8b env3w = .ok { lockOutput := none } :=
  ⟨(C8_resume_requires_tar_destination c8a env3w (by decide) rfl).1
      (by decide) rfl rfl,
   ((C8_resume_requires_tar_destination c8b env3w (by decide) rfl).2
      (by decide) rfl rfl rfl rfl).1 rfl⟩

/-- Claim C9: combining a tar destination with a lock-output path, or with a
tar source, is rejected by `Run` before any copy, in every environment; and
whenever the destination is a tar, a successful run writes no lock
artifact. -/
theorem C9_tar_destination_excludes_lock_output :
    ∀ (c : CopyOptions) (env : Env),
    (c.hasOneSrc = true → env.newSimpleRegistry = .ok () →
     c.TarFlags.TarDst ≠ "" → c.RepoDst = "" →
       ((c.TarFlags.TarSrc = "" → c.LockOutputFlags.LockFilePath ≠ "" →
           c.Run env = .error "Cannot output lock file with tar destination") ∧
        (c.TarFlags.TarSrc ≠ "" →
           c.Run env =
             .error "Cannot use tar source (--tar) with tar destination (--to-tar)"))) ∧
    (∀ out : RunOutcome, c.TarFlags.TarDst ≠ "" → c.Run env = .ok out →
       out.lockOutput = none) := by
  intro c env
  constructor
  · intro hsrc hreg htd hrd
    have hdst : c.hasOneDst = true := by
      simp [CopyOptions.hasOneDst, CopyOptions.isRepoDst, TarFlags.IsDst,
        bne_iff_ne, hrd, htd]
    have hIsDst : c.TarFlags.IsDst = true := by
      simp [TarFlags.IsDst, bne_iff_ne, htd]
    constructor
    · intro hts hlo
      have hIsSrc : c.TarFlags.IsSrc = false := by simp [TarFlags.IsSrc, hts]
      have hlo' : (c.LockOutputFlags.LockFilePath != "") = true :=
        bne_iff_ne.mpr hlo
      simp [CopyOptions.Run, hsrc, hdst, hreg, hIsDst, hIsSrc, hlo']
    · intro hts
      have hIsSrc : c.TarFlags.IsSrc = true := by
        simp [TarFlags.IsSrc, bne_iff_ne, hts]
      simp [CopyOptions.Run, hsrc, hdst, hreg, hIsDst, hIsSrc]
  · intro out htar hrun
    have hIsDst : c.TarFlags.IsDst = true := by
      simp [TarFlags.IsDst, bne_iff_ne, htar]
    by_cases hsrc : c.hasOneSrc = true
    · by_cases hdst : c.hasOneDst = true
      · cases hreg : env.newSimpleRegistry with
        | error e => simp [CopyOptions.Run, hsrc, hdst, hreg] at hrun
        | ok u =>
          by_cases hIsSrc : c.TarFlags.IsSrc = true
          · simp [CopyOptions.Run, hsrc, hdst, hreg, hIsDst, hIsSrc] at hrun
          · have hIsSrc' : c.TarFlags.IsSrc = false :=
              Bool.not_eq_true _ ▸ Bool.of_not_eq_true hIsSrc
            by_cases hlo : c.LockOutputFlags.LockFilePath = ""
            · cases hct : env.copyToTar with
              | error e =>
                simp [CopyOptions.Run, hsrc, hdst, hreg, hIsDst, hIsSrc',
                  hlo, hct] at hrun
              | ok u2 =>
                have : ({ lockOutput := none } : RunOutcome) = out := by
                  simpa [CopyOptions.Run, hsrc, hdst, hreg, hIsDst, hIsSrc',
                    hlo, hct] using hrun
                rw [← this]
            · have hlo' : (c.LockOutputFlags.LockFilePath != "") = true :=
                bne_iff_ne.mpr hlo
              simp [CopyOptions.Run, hsrc, hdst, hreg, hIsDst, hIsSrc',
                hlo'] at hrun
      · have hdst' : c.hasOneDst = false :=
          Bool.not_eq_true _ ▸ Bool.of_not_eq_true hdst
        simp [CopyOptions.Run, hsrc, hdst'] at hrun
    · have hsrc' : c.hasOneSrc = false :=
        Bool.not_eq_true _ ▸ Bool.of_not_eq_true hsrc
      simp [CopyOptions.Run, hsrc'] at hrun

/-- Claim C9, witness: the two rejections at concrete configurations. -/
theorem C9_witness :
    CopyOptions.Run c9a env3w =
      .error "Cannot output lock file with tar destination" ∧
    CopyOptions.Run c9b env3w =
      .error "Cannot use tar source (--tar) with tar destination (--to-tar)" :=
  ⟨((C9_tar_destination_excludes_lock_output c9a env3w).1 (by decide) rfl
      (by decide) rfl).1 rfl (by decide),
   ((C9_tar_destination_excludes_lock_output c9b env3w).1 (by decide) rfl
      (by decide) rfl).2 (by decide)⟩

/-- Claim C1, counterexample: on a reference lacking a digest, `Validate`
panics instead of returning a typed error, and `Add` propagates the panic,
so a panic does escape the library boundary. -/
theorem C1_counterexample :
    UnprocessedImageRef.Validate
        { DigestRef := "nginx", Tag := "latest", Labels := none, OrigRef := "" }
      = GoResult.panicked "Digest need to be provided: could not parse reference: nginx"
    ∧ NewUnprocessedImageRefs.Add
        { DigestRef := "nginx", Tag := "latest", Labels := none, OrigRef := "" }
      = GoResult.panicked "Digest need to be provided: could not parse reference: nginx" :=
  ⟨rfl, rfl⟩

/-- Claim C1 as amended: for every reference string lacking a valid digest,
`Validate` panics with a "Digest need to be provided" message (it does not
return a typed error), and `Add`, which calls `Validate` first, propagates
the same panic without inserting. -/
theorem C1_validate_panics_on_missing_digest :
    ∀ (u : UnprocessedImageRef) (err : String) (s : UnprocessedImageRefs),
    NewDigest u.DigestRef = .error err →
    u.Validate = .panicked ("Digest need to be provided: " ++ err) ∧
    s.Add u = .panicked ("Digest need to be provided: " ++ err) := by
  intro u err s h
  have hv : u.Validate = .panicked ("Digest need to be provided: " ++ err) := by
    unfold UnprocessedImageRef.Validate
    rw [h]
  refine ⟨hv, ?_⟩
  unfold UnprocessedImageRefs.Add
  rw [hv]

/-- Claim C1, witness: the amended theorem applied to a concrete
digest-less reference. -/
theorem C1_witness :
    UnprocessedImageRef.Validate
        { DigestRef := "ubuntu", Tag := "", Labels := none, OrigRef := "" }
      = GoResult.panicked "Digest need to be provided: could not parse reference: ubuntu"
    ∧ NewUnprocessedImageRefs.Add
        { DigestRef := "ubuntu", Tag := "", Labels := none, OrigRef := "" }
      = GoResult.panicked "Digest need to be provided: could not parse reference: ubuntu" :=
  C1_validate_panics_on_missing_digest
    { DigestRef := "ubuntu", Tag := "", Labels := none, OrigRef := "" }
    "could not parse reference: ubuntu" NewUnprocessedImageRefs (by rfl)

/-- Claim C5: insertion is keyed by `digest_ref ++ ":" ++ tag` with
last-writer-wins overwrite: after `Add r1` then `Add r2` with equal keys the
set holds `r2` and not `r1` and its size is unchanged by the second `Add`;
two records with the same sha256 but different repositories (equal tags,
distinct digest references) have distinct keys and both are retained. -/
theorem C5_insertion_key_semantics :
    ∀ (s s1 s2 : UnprocessedImageRefs) (r1 r2 : UnprocessedImageRef),
    s.Keyed →
    s.Add r1 = .ok s1 → s1.Add r2 = .ok s2 →
    (r2.Key = r2.DigestRef ++ ":" ++ r2.Tag) ∧
    (r1.Key = r2.Key → r1 ≠ r2 →
      s2.lookupRef r2.Key = some r2 ∧
      r1 ∉ s2.imgRefs.map Prod.snd ∧
      s2.Length = s1.Length) ∧
    (r1.Tag = r2.Tag → r1.DigestRef ≠ r2.DigestRef →
      r1.Key ≠ r2.Key ∧
      s2.lookupRef r1.Key = some r1 ∧
      s2.lookupRef r2.Key = some r2) := by
  intro s s1 s2 r1 r2 hkeyed h1 h2
  have e1 : s1.imgRefs = insertKV r1.Key r1 s.imgRefs := Add_ok_imgRefs h1
  have e2 : s2.imgRefs = insertKV r2.Key r2 s1.imgRefs := Add_ok_imgRefs h2
  have hk1 : s1.Keyed := Keyed_Add hkeyed h1
  have hk2 : s2.Keyed := Keyed_Add hk1 h2
  refine ⟨rfl, ?_, ?_⟩
  · intro hkey hne
    have hlook2 : s2.lookupRef r2.Key = some r2 := by
      show List.lookup r2.Key s2.imgRefs = some r2
      rw [e2]
      exact lookup_insertKV_self _ _ _
    refine ⟨hlook2, ?_, ?_⟩
    · intro hmem
      rcases List.mem_map.mp hmem with ⟨p, hp, hsnd⟩
      have hfst : p.1 = r2.Key := by
        have := hk2.2 p hp
        rw [this, hsnd, ← hkey, hkey]
      have hpair : (r2.Key, r1) ∈ s2.imgRefs := by
        have : p = (r2.Key, r1) := Prod.ext hfst hsnd
        rwa [this] at hp
      rw [e2] at hpair
      exact hne (mem_insertKV_self_eq _ _ _ _ hk1.1 hpair)
    · show s2.imgRefs.length = s1.imgRefs.length
      rw [e2]
      apply length_insertKV_of_mem
      have : List.lookup r2.Key s1.imgRefs = some r1 := by
        rw [e1, ← hkey]
        exact lookup_insertKV_self _ _ _
      rw [this]
      rfl
  · intro ht hd
    have hkey : r1.Key ≠ r2.Key := Key_ne_of_DigestRef_ne ht hd
    refine ⟨hkey, ?_, ?_⟩
    · show List.lookup r1.Key s2.imgRefs = some r1
      rw [e2, lookup_insertKV_ne _ _ _ _ hkey, e1]
      exact lookup_insertKV_self _ _ _
    · show List.lookup r2.Key s2.imgRefs = some r2
      rw [e2]
      exact lookup_insertKV_self _ _ _

/-- Claim C5, witness: the overwrite branch at concrete records sharing a
key. -/
theorem C5_witness :
    s2c.lookupRef r2c.Key = some r2c ∧
    r1c ∉ s2c.imgRefs.map Prod.snd ∧
    s2c.Length = s1c.Length :=
  (C5_insertion_key_semantics NewUnprocessedImageRefs s1c s2c r1c r2c
    ⟨List.nodup_nil, by intro p hp; cases hp⟩ (by rfl) (by rfl)).2.1 rfl
    (by decide)

/-- Claim C6: `All()` returns exactly the set's entries (a permutation of
the stored records), sorted ascending by `DigestRef`. -/
theorem C6_all_sorted_by_digest :
    ∀ s : UnprocessedImageRefs,
    s.All.Perm (s.imgRefs.map Prod.snd) ∧
    s.All.Pairwise (fun a b => a.DigestRef ≤ b.DigestRef) := by
  intro s
  constructor
  · exact List.perm_insertionSort _ _
  · exact List.sorted_insertionSort digestLE (s.imgRefs.map Prod.snd)

/-- Claim C10: `LabelValue` returns `(v, true)` exactly when the labels map
binds the label to `v`, and `("", false)` when the label is absent,
including on a nil map; it is a pure lookup and cannot fail. -/
theorem C10_label_value :
    ∀ (u : UnprocessedImageRef) (label : String),
    (∀ v, u.LabelValue label = (v, true) ↔
      Option.bind u.Labels (List.lookup label) = some v) ∧
    (Option.bind u.Labels (List.lookup label) = none →
      u.LabelValue label = ("", false)) ∧
    (u.Labels = none → u.LabelValue label = ("", false)) := by
  intro u label
  obtain ⟨d, t, labs, o⟩ := u
  cases labs with
  | none =>
    refine ⟨fun v => ?_, fun _ => rfl, fun _ => rfl⟩
    simp [UnprocessedImageRef.LabelValue]
  | some m =>
    cases hm : List.lookup label m with
    | none =>
      refine ⟨fun v => ?_, fun _ => ?_, fun h => by cases h⟩ <;>
        simp [UnprocessedImageRef.LabelValue, hm]
    | some w =>
      refine ⟨fun v => ?_, fun hnone => ?_, fun h => by cases h⟩
      · simp [UnprocessedImageRef.LabelValue, hm, eq_comm]
      · simp [hm] at hnone

/-- Claim C10, witness: a present label and a nil-map lookup at concrete
records. -/
theorem C10_witness :
    uLab.LabelValue "k" = ("v", true) ∧ uNil.LabelValue "k" = ("", false) :=
  ⟨((C10_label_value uLab "k").1 "v").mpr (by rfl),
    (C10_label_value uNil "k").2.2 rfl⟩

end Imgpkg
